import Mathlib

/-!
Shallow embedding of the CLI task manager's core (domain entity, SQLite
repository, task service, schema migrations) together with proofs of the
specification's claims about it.

Modelling conventions:
* Go `time.Time` is modelled as `Nat`; every call to `time.Now()` in the
  source becomes an explicit `Nat` argument of the embedded operation, one
  argument per call site, so that two distinct calls may return distinct
  values (the real clock is monotone across calls).
* The SQLite `tasks` table is a `List Task` in row order; `INSERT` appends,
  `UPDATE ... WHERE id = ?` maps over rows, `DELETE` filters, and
  `SELECT ... ORDER BY created_at DESC` filters then sorts.
* Go errors are an inductive type; `fmt.Errorf("...: %w", err)` becomes the
  `wrapped` constructor and `errors.Is` becomes `GoErr.is`.
* Service operations return, besides the result, the new table state and the
  trace of repository calls issued, so that "no storage call happens" is a
  provable statement.
-/

namespace TaskManager

/-- Status of a task; in the Go source `TaskStatus` is a string type. -/
abbrev TaskStatus := String

/-- Priority of a task; in the Go source `TaskPriority` is a string type. -/
abbrev TaskPriority := String

/-- Constant `TaskStatusPending` from the domain package. -/
def TaskStatusPending : TaskStatus := "pending"

/-- Constant `TaskStatusCompleted` from the domain package. -/
def TaskStatusCompleted : TaskStatus := "completed"

/-- Constant `TaskPriorityLow` from the domain package. -/
def TaskPriorityLow : TaskPriority := "low"

/-- Constant `TaskPriorityMedium` from the domain package. -/
def TaskPriorityMedium : TaskPriority := "medium"

/-- Constant `TaskPriorityHigh` from the domain package. -/
def TaskPriorityHigh : TaskPriority := "high"

/-- The task entity (struct `Task` in `internal/domain/task.go`).
Timestamps are `Nat`; `CompletedAt *time.Time` becomes `Option Nat`. -/
structure Task where
  id : String
  title : String
  description : String
  status : TaskStatus
  priority : TaskPriority
  createdAt : Nat
  updatedAt : Nat
  completedAt : Option Nat
deriving Repr, DecidableEq

/-- Filter criteria (struct `TaskFilter` in `internal/domain/task.go`);
pointer fields become `Option`. -/
structure TaskFilter where
  status : Option TaskStatus
  priority : Option TaskPriority
  fromDate : Option Nat
  toDate : Option Nat
deriving Repr, DecidableEq

/-- Go error values. The three sentinels of the domain package are
constructors; `errors.New` inside `Validate` yields `validationErr`,
driver-level SQLite errors are `sqliteErr`, and
`fmt.Errorf("ctx: %w", inner)` is `wrapped ctx inner`. -/
inductive GoErr where
  | taskNotFound : GoErr
  | invalidTaskID : GoErr
  | duplicateTask : GoErr
  | validationErr (msg : String) : GoErr
  | sqliteErr (msg : String) : GoErr
  | wrapped (ctx : String) (inner : GoErr) : GoErr
deriving Repr, DecidableEq

/-- Model of `errors.Is e target`: `e` equals `target` or wraps an error
that does. -/
def GoErr.is : GoErr → GoErr → Bool
  | .wrapped ctx inner, target =>
      (GoErr.wrapped ctx inner = target) || GoErr.is inner target
  | e, target => e = target

/-- Method `Validate` of `Task`: title must be non-empty, status and
priority must be among their enumerated values. Pure, mirrors the three
`if` blocks of the Go method in order. -/
def Task.Validate (t : Task) : Except GoErr Unit :=
  if t.title = "" then
    .error (.validationErr "task title cannot be empty")
  else if t.status ≠ TaskStatusPending ∧ t.status ≠ TaskStatusCompleted then
    .error (.validationErr "invalid task status")
  else if t.priority ≠ TaskPriorityLow ∧ t.priority ≠ TaskPriorityMedium ∧
      t.priority ≠ TaskPriorityHigh then
    .error (.validationErr "invalid task priority")
  else
    .ok ()

/-- Method `MarkCompleted` of `Task`: sets status to completed and both
`CompletedAt` and `UpdatedAt` to the single `time.Now()` value read inside
the method (`now` here). -/
def Task.MarkCompleted (t : Task) (now : Nat) : Task :=
  { t with status := TaskStatusCompleted, completedAt := some now, updatedAt := now }

/-- The `tasks` table: rows in insertion (rowid) order. -/
abbrev DB := List Task

/-- Primary-key lookup inside the table, the semantics of
`WHERE id = ?` on the `id TEXT PRIMARY KEY` column. -/
def findRow (db : DB) (id : String) : Option Task :=
  db.find? (fun t => t.id == id)

/-- Method `Create` of `SQLiteTaskRepository`: executes the parameterized
`INSERT`. A row whose primary key already exists makes SQLite fail with a
UNIQUE-constraint error, which the Go code wraps generically with
`fmt.Errorf("failed to create task: %w", err)`; no mapping to
`ErrDuplicateTask` is performed anywhere in the method. -/
def SQLiteTaskRepository.Create (db : DB) (task : Task) : Except GoErr DB :=
  if (findRow db task.id).isSome then
    .error (.wrapped "failed to create task"
      (.sqliteErr "UNIQUE constraint failed: tasks.id"))
  else
    .ok (db ++ [task])

/-- Method `GetByID` of `SQLiteTaskRepository`: single-row lookup;
`sql.ErrNoRows` is mapped to the sentinel `ErrTaskNotFound`. -/
def SQLiteTaskRepository.GetByID (db : DB) (id : String) : Except GoErr Task :=
  match findRow db id with
  | some t => .ok t
  | none => .error .taskNotFound

/-- One `AND`-appended predicate of the `List` query of
`SQLiteTaskRepository`. -/
inductive Clause where
  | statusEq (s : TaskStatus)
  | priorityEq (p : TaskPriority)
  | createdAtGe (d : Nat)
  | createdAtLe (d : Nat)
deriving Repr, DecidableEq

/-- Semantics of a single appended `WHERE` predicate on a row. -/
def Clause.holds (t : Task) : Clause → Bool
  | .statusEq s => t.status == s
  | .priorityEq p => t.priority == p
  | .createdAtGe d => d ≤ t.createdAt
  | .createdAtLe d => t.createdAt ≤ d

/-- Query construction of `SQLiteTaskRepository.List`: starting from
`WHERE 1=1`, append one clause per filter field that is set, in the
source's order (status, priority, from-date, to-date). -/
def buildClauses (filter : TaskFilter) : List Clause :=
  let cs : List Clause := []
  let cs := match filter.status with
    | some s => cs ++ [.statusEq s]
    | none => cs
  let cs := match filter.priority with
    | some p => cs ++ [.priorityEq p]
    | none => cs
  let cs := match filter.fromDate with
    | some d => cs ++ [.createdAtGe d]
    | none => cs
  let cs := match filter.toDate with
    | some d => cs ++ [.createdAtLe d]
    | none => cs
  cs

/-- Conjunction of the appended clauses on one row. -/
def rowMatches (cs : List Clause) (t : Task) : Bool :=
  cs.all (fun c => c.holds t)

/-- Ordering relation of `ORDER BY created_at DESC`. -/
def createdAtDesc (a b : Task) : Prop :=
  b.createdAt ≤ a.createdAt

instance : DecidableRel createdAtDesc :=
  fun _ _ => Nat.decLe _ _

instance : IsTotal Task createdAtDesc :=
  ⟨fun a b => Nat.le_total b.createdAt a.createdAt⟩

instance : IsTrans Task createdAtDesc :=
  ⟨fun _ _ _ hab hbc => Nat.le_trans hbc hab⟩

/-- Result-set ordering of `ORDER BY created_at DESC`. -/
def sortByCreatedAtDesc (rows : DB) : DB :=
  List.insertionSort createdAtDesc rows

/-- Method `List` of `SQLiteTaskRepository`: evaluates the built query —
rows satisfying every appended clause, ordered by `created_at`
descending. Zero matching rows yield the empty sequence, not an error. -/
def SQLiteTaskRepository.ListTasks (db : DB) (filter : TaskFilter) : Except GoErr DB :=
  .ok (sortByCreatedAtDesc (db.filter (rowMatches (buildClauses filter))))

/-- Method `Update` of `SQLiteTaskRepository`: a read-before-write
existence check via `GetByID`, then the `UPDATE ... WHERE id = ?`
statement; zero rows affected is reported as `ErrTaskNotFound`. -/
def SQLiteTaskRepository.Update (db : DB) (task : Task) : Except GoErr DB :=
  match SQLiteTaskRepository.GetByID db task.id with
  | .error e => .error e
  | .ok _ =>
    let rowsAffected := (db.filter (fun r => r.id == task.id)).length
    if rowsAffected = 0 then
      .error .taskNotFound
    else
      .ok (db.map (fun r => if r.id == task.id then task else r))

/-- Method `Delete` of `SQLiteTaskRepository`: `DELETE ... WHERE id = ?`;
zero rows affected is reported as `ErrTaskNotFound`. -/
def SQLiteTaskRepository.Delete (db : DB) (id : String) : Except GoErr DB :=
  let rowsAffected := (db.filter (fun r => r.id == id)).length
  if rowsAffected = 0 then
    .error .taskNotFound
  else
    .ok (db.filter (fun r => r.id != id))

/-- One repository invocation, recorded by the service model so that
"no storage call occurs" is expressible. -/
inductive RepoCall where
  | createCall (t : Task)
  | getByIDCall (id : String)
  | listCall (f : TaskFilter)
  | updateCall (t : Task)
  | deleteCall (id : String)
deriving Repr, DecidableEq

/-- Outcome of one service operation: the returned value or error, the
table state afterwards, and the repository calls issued, in order. -/
structure ServiceResult (α : Type) where
  result : Except GoErr α
  db : DB
  calls : List RepoCall
deriving Repr

/-- The task literal built at the top of `CreateTask`: `newId` stands for
the value of `uuid.New().String()`; `now1` and `now2` are the two separate
`time.Now()` calls initializing `CreatedAt` and `UpdatedAt`. -/
def TaskService.newTask (newId title description : String)
    (priority : TaskPriority) (now1 now2 : Nat) : Task :=
  { id := newId, title := title, description := description,
    status := TaskStatusPending, priority := priority,
    createdAt := now1, updatedAt := now2, completedAt := none }

/-- Method `CreateTask` of `TaskService`: build the task, validate, then
delegate to the repository. Validation failure short-circuits before any
repository call. -/
def TaskService.CreateTask (db : DB) (newId title description : String)
    (priority : TaskPriority) (now1 now2 : Nat) : ServiceResult Task :=
  match (TaskService.newTask newId title description priority now1 now2).Validate with
  | .error e => ⟨.error (.wrapped "task validation failed" e), db, []⟩
  | .ok _ =>
    match SQLiteTaskRepository.Create db
        (TaskService.newTask newId title description priority now1 now2) with
    | .error e =>
      ⟨.error (.wrapped "failed to create task" e), db,
        [.createCall (TaskService.newTask newId title description priority now1 now2)]⟩
    | .ok db2 =>
      ⟨.ok (TaskService.newTask newId title description priority now1 now2), db2,
        [.createCall (TaskService.newTask newId title description priority now1 now2)]⟩

/-- Method `GetTask` of `TaskService`: an empty id is rejected with
`ErrInvalidTaskID` before any repository call. -/
def TaskService.GetTask (db : DB) (id : String) : ServiceResult Task :=
  if id = "" then
    ⟨.error .invalidTaskID, db, []⟩
  else
    match SQLiteTaskRepository.GetByID db id with
    | .error e => ⟨.error e, db, [.getByIDCall id]⟩
    | .ok t => ⟨.ok t, db, [.getByIDCall id]⟩

/-- Method `ListTasks` of `TaskService`: pure delegation; a repository
error is wrapped. -/
def TaskService.ListTasks (db : DB) (filter : TaskFilter) : ServiceResult DB :=
  match SQLiteTaskRepository.ListTasks db filter with
  | .error e => ⟨.error (.wrapped "failed to list tasks" e), db, [.listCall filter]⟩
  | .ok rows => ⟨.ok rows, db, [.listCall filter]⟩

/-- The field-merge block of `UpdateTask` (the three `if ... != ""`
statements followed by `task.UpdatedAt = time.Now()`): overwrite exactly
the non-empty arguments — title, then description, then priority — and set
`UpdatedAt` to the `time.Now()` value `now`. -/
def TaskService.applyUpdates (task0 : Task) (title description : String)
    (priority : TaskPriority) (now : Nat) : Task :=
  let task1 := if title ≠ "" then { task0 with title := title } else task0
  let task2 := if description ≠ "" then { task1 with description := description } else task1
  let task3 := if priority ≠ "" then { task2 with priority := priority } else task2
  { task3 with updatedAt := now }

/-- Method `UpdateTask` of `TaskService`: reject empty id, load the
existing task, merge the supplied fields, re-validate the merged result,
then persist via the repository. -/
def TaskService.UpdateTask (db : DB) (id title description : String)
    (priority : TaskPriority) (now : Nat) : ServiceResult Task :=
  if id = "" then
    ⟨.error .invalidTaskID, db, []⟩
  else
    match SQLiteTaskRepository.GetByID db id with
    | .error e => ⟨.error e, db, [.getByIDCall id]⟩
    | .ok task0 =>
      match (TaskService.applyUpdates task0 title description priority now).Validate with
      | .error e => ⟨.error (.wrapped "task validation failed" e), db, [.getByIDCall id]⟩
      | .ok _ =>
        match SQLiteTaskRepository.Update db
            (TaskService.applyUpdates task0 title description priority now) with
        | .error e =>
          ⟨.error (.wrapped "failed to update task" e), db,
            [.getByIDCall id,
             .updateCall (TaskService.applyUpdates task0 title description priority now)]⟩
        | .ok db2 =>
          ⟨.ok (TaskService.applyUpdates task0 title description priority now), db2,
            [.getByIDCall id,
             .updateCall (TaskService.applyUpdates task0 title description priority now)]⟩

/-- Method `CompleteTask` of `TaskService`: reject empty id, load the
task; if it is already completed return it unchanged without persisting;
otherwise `MarkCompleted` (with the single `time.Now()` value `now`) and
persist via the repository. -/
def TaskService.CompleteTask (db : DB) (id : String) (now : Nat) : ServiceResult Task :=
  if id = "" then
    ⟨.error .invalidTaskID, db, []⟩
  else
    match SQLiteTaskRepository.GetByID db id with
    | .error e => ⟨.error e, db, [.getByIDCall id]⟩
    | .ok task =>
      if task.status = TaskStatusCompleted then
        ⟨.ok task, db, [.getByIDCall id]⟩
      else
        match SQLiteTaskRepository.Update db (task.MarkCompleted now) with
        | .error e =>
          ⟨.error (.wrapped "failed to complete task" e), db,
            [.getByIDCall id, .updateCall (task.MarkCompleted now)]⟩
        | .ok db2 =>
          ⟨.ok (task.MarkCompleted now), db2,
            [.getByIDCall id, .updateCall (task.MarkCompleted now)]⟩

/-- Method `DeleteTask` of `TaskService`: reject empty id locally,
otherwise delegate to the repository. -/
def TaskService.DeleteTask (db : DB) (id : String) : ServiceResult Unit :=
  if id = "" then
    ⟨.error .invalidTaskID, db, []⟩
  else
    match SQLiteTaskRepository.Delete db id with
    | .error e => ⟨.error e, db, [.deleteCall id]⟩
    | .ok db2 => ⟨.ok (), db2, [.deleteCall id]⟩

/-! Helper lemmas about the table model. -/

theorem findRow_mem {db : DB} {id : String} {t : Task}
    (h : findRow db id = some t) : t ∈ db :=
  List.mem_of_find?_eq_some h

theorem findRow_id {db : DB} {id : String} {t : Task}
    (h : findRow db id = some t) : t.id = id := by
  have hp := List.find?_some h
  simpa using hp

theorem filter_id_length_ne_zero {db : DB} {id : String} {t : Task}
    (h : findRow db id = some t) :
    (db.filter (fun r => r.id == id)).length ≠ 0 := by
  have hmem : t ∈ db.filter (fun r => r.id == id) :=
    List.mem_filter.mpr ⟨findRow_mem h, by simp [findRow_id h]⟩
  have : 0 < (db.filter (fun r => r.id == id)).length :=
    List.length_pos.mpr (List.ne_nil_of_mem hmem)
  omega

theorem GetByID_eq_ok {db : DB} {id : String} {t : Task} :
    SQLiteTaskRepository.GetByID db id = .ok t ↔ findRow db id = some t := by
  unfold SQLiteTaskRepository.GetByID
  cases h : findRow db id <;> simp

theorem GetByID_eq_err {db : DB} {id : String} {e : GoErr} :
    SQLiteTaskRepository.GetByID db id = .error e ↔
      (findRow db id = none ∧ e = .taskNotFound) := by
  unfold SQLiteTaskRepository.GetByID
  cases h : findRow db id <;> simp [eq_comm]

theorem Update_eq_ok {db : DB} {task x : Task}
    (h : findRow db task.id = some x) :
    SQLiteTaskRepository.Update db task =
      .ok (db.map (fun r => if r.id == task.id then task else r)) := by
  unfold SQLiteTaskRepository.Update
  rw [GetByID_eq_ok.mpr h]
  simp [filter_id_length_ne_zero h]

theorem Update_eq_err_of_absent {db : DB} {task : Task}
    (h : findRow db task.id = none) :
    SQLiteTaskRepository.Update db task = .error .taskNotFound := by
  unfold SQLiteTaskRepository.Update SQLiteTaskRepository.GetByID
  rw [h]

theorem findRow_map_replace (db : DB) (id : String) (t : Task) (hid : t.id = id) :
    ∀ x, findRow db id = some x →
      findRow (db.map (fun r => if r.id == id then t else r)) id = some t := by
  induction db with
  | nil => intro x h; simp [findRow] at h
  | cons r rest ih =>
    intro x h
    by_cases hr : r.id = id
    · simp [findRow, hr, hid]
    · have h2 : findRow rest id = some x := by
        simpa [findRow, hr] using h
      simpa [findRow, hr] using ih x h2

/-! Concrete tasks used as failing inputs and witnesses. -/

/-- A row already present in the table. -/
def taskExisting : Task :=
  ⟨"t1", "Buy milk", "", TaskStatusPending, TaskPriorityLow, 0, 0, none⟩

/-- A fresh task that reuses the id of `taskExisting`. -/
def taskColliding : Task :=
  ⟨"t1", "Other chore", "", TaskStatusPending, TaskPriorityMedium, 1, 1, none⟩

/-- C1: on a primary-key collision the repository's `Create` surfaces a
generic wrapped storage error, not the distinguished `ErrDuplicateTask`:
the returned error is the wrapped SQLite constraint error, it is not equal
to `ErrDuplicateTask`, and `errors.Is` against `ErrDuplicateTask` is
false, both at the repository and at the service boundary. -/
theorem create_duplicate_id_not_reported_as_duplicateTask :
    SQLiteTaskRepository.Create [taskExisting] taskColliding =
      .error (.wrapped "failed to create task"
        (.sqliteErr "UNIQUE constraint failed: tasks.id")) ∧
    (GoErr.wrapped "failed to create task"
        (.sqliteErr "UNIQUE constraint failed: tasks.id")) ≠ GoErr.duplicateTask ∧
    (GoErr.wrapped "failed to create task"
        (.sqliteErr "UNIQUE constraint failed: tasks.id")).is GoErr.duplicateTask = false ∧
    (TaskService.CreateTask [taskExisting] "t1" "Other chore" ""
        TaskPriorityMedium 1 1).result =
      .error (.wrapped "failed to create task" (.wrapped "failed to create task"
        (.sqliteErr "UNIQUE constraint failed: tasks.id"))) ∧
    (GoErr.wrapped "failed to create task" (.wrapped "failed to create task"
        (.sqliteErr "UNIQUE constraint failed: tasks.id"))).is GoErr.duplicateTask = false := by
  exact ⟨rfl, by decide, by decide, rfl, by decide⟩

/-- The task built by `CreateTask` when the two `time.Now()` reads return
0 and 1. -/
def taskFromDistinctReads : Task :=
  ⟨"id1", "Buy milk", "", TaskStatusPending, TaskPriorityLow, 0, 1, none⟩

/-- C2 counterexample: with a valid title and priority but a clock that
advances between the two separate `time.Now()` calls of `CreateTask`
(reads 0 then 1), the created task has `createdAt ≠ updatedAt`, refuting
the claimed unconditional equality `created_at == updated_at`. -/
theorem createTask_created_ne_updated_at_distinct_clock_reads :
    (TaskService.CreateTask [] "id1" "Buy milk" "" TaskPriorityLow 0 1).result =
      .ok taskFromDistinctReads ∧
    taskFromDistinctReads.createdAt ≠ taskFromDistinctReads.updatedAt := by
  exact ⟨rfl, by decide⟩

/-- C2 amended: for a non-empty title, an enumerated priority, and a fresh
id, `CreateTask` succeeds and returns a task whose title and priority match
the input, whose status is pending, whose `completedAt` is unset, and whose
`createdAt` and `updatedAt` are the first and second `time.Now()` reads, so
`createdAt ≤ updatedAt` whenever the clock is monotone (equality only when
the two reads coincide); the task is appended to the table. -/
theorem createTask_valid_input_fields (db : DB) (newId title description : String)
    (priority : TaskPriority) (now1 now2 : Nat)
    (ht : title ≠ "")
    (hp : priority = TaskPriorityLow ∨ priority = TaskPriorityMedium ∨
      priority = TaskPriorityHigh)
    (hfresh : findRow db newId = none)
    (hclock : now1 ≤ now2) :
    ∃ t, (TaskService.CreateTask db newId title description priority now1 now2).result =
        .ok t ∧
      t.title = title ∧ t.priority = priority ∧ t.status = TaskStatusPending ∧
      t.completedAt = none ∧ t.createdAt = now1 ∧ t.updatedAt = now2 ∧
      t.createdAt ≤ t.updatedAt ∧
      (TaskService.CreateTask db newId title description priority now1 now2).db =
        db ++ [t] := by
  have hval : (TaskService.newTask newId title description priority now1 now2).Validate =
      .ok () := by
    unfold Task.Validate TaskService.newTask
    rcases hp with hp | hp | hp <;>
      simp [ht, hp, TaskStatusPending, TaskStatusCompleted,
        TaskPriorityLow, TaskPriorityMedium, TaskPriorityHigh]
  have hcreate : SQLiteTaskRepository.Create db
      (TaskService.newTask newId title description priority now1 now2) =
      .ok (db ++ [TaskService.newTask newId title description priority now1 now2]) := by
    unfold SQLiteTaskRepository.Create
    simp [TaskService.newTask, hfresh]
  have hstep : TaskService.CreateTask db newId title description priority now1 now2 =
      ⟨.ok (TaskService.newTask newId title description priority now1 now2),
       db ++ [TaskService.newTask newId title description priority now1 now2],
       [.createCall (TaskService.newTask newId title description priority now1 now2)]⟩ := by
    unfold TaskService.CreateTask
    rw [hval, hcreate]
  refine ⟨TaskService.newTask newId title description priority now1 now2,
    by rw [hstep], rfl, rfl, rfl, rfl, rfl, rfl, hclock, by rw [hstep]⟩

/-- C2 amended, witness: a concrete instantiation of
`createTask_valid_input_fields` on the empty table with title "Buy milk",
priority low, and clock reads 3 and 4. -/
theorem createTask_valid_input_fields_witness :
    ∃ t, (TaskService.CreateTask [] "w1" "Buy milk" "" TaskPriorityLow 3 4).result =
        .ok t ∧
      t.title = "Buy milk" ∧ t.priority = TaskPriorityLow ∧
      t.status = TaskStatusPending ∧
      t.completedAt = none ∧ t.createdAt = 3 ∧ t.updatedAt = 4 ∧
      t.createdAt ≤ t.updatedAt ∧
      (TaskService.CreateTask [] "w1" "Buy milk" "" TaskPriorityLow 3 4).db =
        [] ++ [t] :=
  createTask_valid_input_fields [] "w1" "Buy milk" "" TaskPriorityLow 3 4
    (by decide) (Or.inl rfl) (by decide) (by decide)

/-- C9: for the empty id each of `GetTask`, `UpdateTask`, `CompleteTask`
and `DeleteTask` returns `ErrInvalidTaskID`, leaves the table unchanged,
and issues no repository call, whatever the state of the store. -/
theorem empty_id_rejected_without_storage (db : DB) (title description : String)
    (priority : TaskPriority) (now : Nat) :
    TaskService.GetTask db "" = ⟨.error .invalidTaskID, db, []⟩ ∧
    TaskService.UpdateTask db "" title description priority now =
      ⟨.error .invalidTaskID, db, []⟩ ∧
    TaskService.CompleteTask db "" now = ⟨.error .invalidTaskID, db, []⟩ ∧
    TaskService.DeleteTask db "" = ⟨.error .invalidTaskID, db, []⟩ := by
  refine ⟨?_, ?_, ?_, ?_⟩ <;>
    simp [TaskService.GetTask, TaskService.UpdateTask,
      TaskService.CompleteTask, TaskService.DeleteTask]

/-- C9 witness: the empty-id rejection at a concrete store state and
concrete arguments. -/
theorem empty_id_rejected_without_storage_witness :
    TaskService.GetTask [taskExisting] "" =
      ⟨.error .invalidTaskID, [taskExisting], []⟩ ∧
    TaskService.UpdateTask [taskExisting] "" "T" "D" TaskPriorityHigh 9 =
      ⟨.error .invalidTaskID, [taskExisting], []⟩ ∧
    TaskService.CompleteTask [taskExisting] "" 9 =
      ⟨.error .invalidTaskID, [taskExisting], []⟩ ∧
    TaskService.DeleteTask [taskExisting] "" =
      ⟨.error .invalidTaskID, [taskExisting], []⟩ :=
  empty_id_rejected_without_storage [taskExisting] "T" "D" TaskPriorityHigh 9

/-! Field behaviour of the update merge and validation. -/

theorem applyUpdates_fields (task0 : Task) (title description : String)
    (priority : TaskPriority) (now : Nat) :
    (TaskService.applyUpdates task0 title description priority now).id = task0.id ∧
    (TaskService.applyUpdates task0 title description priority now).status = task0.status ∧
    (TaskService.applyUpdates task0 title description priority now).createdAt =
      task0.createdAt ∧
    (TaskService.applyUpdates task0 title description priority now).completedAt =
      task0.completedAt ∧
    (TaskService.applyUpdates task0 title description priority now).title =
      (if title = "" then task0.title else title) ∧
    (TaskService.applyUpdates task0 title description priority now).description =
      (if description = "" then task0.description else description) ∧
    (TaskService.applyUpdates task0 title description priority now).priority =
      (if priority = "" then task0.priority else priority) ∧
    (TaskService.applyUpdates task0 title description priority now).updatedAt = now := by
  by_cases h1 : title = "" <;> by_cases h2 : description = "" <;>
    by_cases h3 : priority = "" <;>
    simp [TaskService.applyUpdates, h1, h2, h3]

theorem Validate_ok_shape {t : Task} (h : t.Validate = .ok ()) :
    t.title ≠ "" ∧
    (t.status = TaskStatusPending ∨ t.status = TaskStatusCompleted) ∧
    (t.priority = TaskPriorityLow ∨ t.priority = TaskPriorityMedium ∨
      t.priority = TaskPriorityHigh) := by
  unfold Task.Validate at h
  split_ifs at h with h1 h2 h3
  · exact ⟨h1, by tauto, by tauto⟩

theorem UpdateTask_ok_elim {db : DB} {id title description : String}
    {priority : TaskPriority} {now : Nat} {t : Task}
    (hres : (TaskService.UpdateTask db id title description priority now).result = .ok t) :
    ∃ task0, findRow db id = some task0 ∧ task0.id = id ∧
      t = TaskService.applyUpdates task0 title description priority now ∧
      t.Validate = .ok () ∧
      (TaskService.UpdateTask db id title description priority now).db =
        db.map (fun r => if r.id == id then t else r) ∧
      (TaskService.UpdateTask db id title description priority now).calls =
        [.getByIDCall id, .updateCall t] := by
  by_cases hid : id = ""
  · unfold TaskService.UpdateTask at hres
    simp [hid] at hres
  · cases hget : SQLiteTaskRepository.GetByID db id with
    | error e =>
      unfold TaskService.UpdateTask at hres
      simp [hid, hget] at hres
    | ok task0 =>
      have hfind : findRow db id = some task0 := GetByID_eq_ok.mp hget
      have hid0 : task0.id = id := findRow_id hfind
      cases hval : (TaskService.applyUpdates task0 title description priority now).Validate with
      | error e =>
        unfold TaskService.UpdateTask at hres
        simp [hid, hget, hval] at hres
      | ok u =>
        have hrow : findRow db
            (TaskService.applyUpdates task0 title description priority now).id =
            some task0 := by
          rw [(applyUpdates_fields task0 title description priority now).1, hid0]
          exact hfind
        have hupd := Update_eq_ok hrow
        have hstep : TaskService.UpdateTask db id title description priority now =
            ⟨.ok (TaskService.applyUpdates task0 title description priority now),
             db.map (fun r =>
               if r.id == (TaskService.applyUpdates task0 title description priority now).id
               then TaskService.applyUpdates task0 title description priority now else r),
             [.getByIDCall id,
              .updateCall (TaskService.applyUpdates task0 title description priority now)]⟩ := by
          simp [TaskService.UpdateTask, hid, hget, hval, hupd]
        rw [hstep] at hres
        simp only [Except.ok.injEq] at hres
        subst hres
        refine ⟨task0, hfind, hid0, rfl, (by cases u; exact hval), ?_, by rw [hstep]⟩
        rw [hstep]
        dsimp only
        rw [(applyUpdates_fields task0 title description priority now).1, hid0]

/-- C3: when `UpdateTask` succeeds on an existing task, the fields not
supplied — id, status, `createdAt`, `completedAt`, and any of
title/description/priority passed as the empty string — are exactly the
prior values, the non-empty supplied fields are applied, and `updatedAt`
becomes the `time.Now()` value of the call, which is strictly later than
the prior `updatedAt` whenever the clock advanced since the last write. -/
theorem updateTask_partial_update_frame (db : DB) (id title description : String)
    (priority : TaskPriority) (now : Nat) (task0 t : Task)
    (h0 : findRow db id = some task0)
    (hres : (TaskService.UpdateTask db id title description priority now).result = .ok t)
    (hclock : task0.updatedAt < now) :
    t.id = task0.id ∧ t.status = task0.status ∧ t.createdAt = task0.createdAt ∧
    t.completedAt = task0.completedAt ∧
    t.title = (if title = "" then task0.title else title) ∧
    t.description = (if description = "" then task0.description else description) ∧
    t.priority = (if priority = "" then task0.priority else priority) ∧
    t.updatedAt = now ∧ task0.updatedAt < t.updatedAt := by
  obtain ⟨task0x, hfind, hid0, ht, hval, hdb, hcalls⟩ := UpdateTask_ok_elim hres
  rw [h0] at hfind
  have hx : task0x = task0 := Option.some.inj hfind.symm
  rw [hx] at ht
  subst ht
  obtain ⟨f1, f2, f3, f4, f5, f6, f7, f8⟩ :=
    applyUpdates_fields task0 title description priority now
  exact ⟨f1, f2, f3, f4, f5, f6, f7, f8, by rw [f8]; exact hclock⟩

/-- C3 witness: updating only the title of a concrete stored task at a
later clock value leaves id, status, priority, description, `createdAt`
and `completedAt` unchanged and advances `updatedAt`. -/
theorem updateTask_partial_update_frame_witness :
    taskExisting.id = taskExisting.id ∧
    (TaskService.UpdateTask [taskExisting] "t1" "New title" "" "" 7).result =
      .ok (TaskService.applyUpdates taskExisting "New title" "" "" 7) ∧
    ((TaskService.applyUpdates taskExisting "New title" "" "" 7).id = taskExisting.id ∧
      (TaskService.applyUpdates taskExisting "New title" "" "" 7).status =
        taskExisting.status ∧
      (TaskService.applyUpdates taskExisting "New title" "" "" 7).createdAt =
        taskExisting.createdAt ∧
      (TaskService.applyUpdates taskExisting "New title" "" "" 7).completedAt =
        taskExisting.completedAt ∧
      (TaskService.applyUpdates taskExisting "New title" "" "" 7).title =
        (if "New title" = "" then taskExisting.title else "New title") ∧
      (TaskService.applyUpdates taskExisting "New title" "" "" 7).description =
        (if "" = "" then taskExisting.description else "") ∧
      (TaskService.applyUpdates taskExisting "New title" "" "" 7).priority =
        (if "" = "" then taskExisting.priority else "") ∧
      (TaskService.applyUpdates taskExisting "New title" "" "" 7).updatedAt = 7 ∧
      taskExisting.updatedAt < (TaskService.applyUpdates taskExisting "New title" "" "" 7).updatedAt) :=
  ⟨rfl, rfl,
    updateTask_partial_update_frame [taskExisting] "t1" "New title" "" "" 7
      taskExisting (TaskService.applyUpdates taskExisting "New title" "" "" 7)
      rfl rfl (by decide)⟩

/-- C10: a successful `UpdateTask` never writes an empty string into any
field: an empty title/description/priority argument keeps the prior value,
the resulting title and priority are always non-empty, and a task whose
description was non-empty keeps a non-empty description. -/
theorem updateTask_never_clears_fields (db : DB) (id title description : String)
    (priority : TaskPriority) (now : Nat) (task0 t : Task)
    (h0 : findRow db id = some task0)
    (hres : (TaskService.UpdateTask db id title description priority now).result = .ok t) :
    t.title ≠ "" ∧ t.priority ≠ "" ∧
    (title = "" → t.title = task0.title) ∧
    (description = "" → t.description = task0.description) ∧
    (priority = "" → t.priority = task0.priority) ∧
    (task0.description ≠ "" → t.description ≠ "") := by
  obtain ⟨task0x, hfind, hid0, ht, hval, hdb, hcalls⟩ := UpdateTask_ok_elim hres
  rw [h0] at hfind
  have hx : task0x = task0 := Option.some.inj hfind.symm
  rw [hx] at ht
  obtain ⟨hv1, hv2, hv3⟩ := Validate_ok_shape hval
  subst ht
  obtain ⟨f1, f2, f3, f4, f5, f6, f7, f8⟩ :=
    applyUpdates_fields task0 title description priority now
  refine ⟨hv1, ?_, ?_, ?_, ?_, ?_⟩
  · rcases hv3 with h | h | h <;> rw [h] <;> decide
  · intro h; rw [f5, if_pos h]
  · intro h; rw [f6, if_pos h]
  · intro h; rw [f7, if_pos h]
  · intro hd
    rw [f6]
    by_cases h : description = ""
    · rw [if_pos h]; exact hd
    · rw [if_neg h]; exact h

/-- C10 witness: a concrete update supplying empty description and
priority on a task with non-empty description keeps both. -/
theorem updateTask_never_clears_fields_witness :
    ∃ t, (TaskService.UpdateTask
        [⟨"t9", "Write report", "important notes", TaskStatusPending,
          TaskPriorityHigh, 2, 2, none⟩] "t9" "" "" "" 5).result = .ok t ∧
      (t.title ≠ "" ∧ t.priority ≠ "" ∧
        ("" = "" → t.title = "Write report") ∧
        ("" = "" → t.description = "important notes") ∧
        ("" = "" → t.priority = TaskPriorityHigh) ∧
        (("important notes" : String) ≠ "" → t.description ≠ "")) := by
  refine ⟨TaskService.applyUpdates
    ⟨"t9", "Write report", "important notes", TaskStatusPending,
      TaskPriorityHigh, 2, 2, none⟩ "" "" "" 5, rfl, ?_⟩
  exact updateTask_never_clears_fields
    [⟨"t9", "Write report", "important notes", TaskStatusPending,
      TaskPriorityHigh, 2, 2, none⟩] "t9" "" "" "" 5
    ⟨"t9", "Write report", "important notes", TaskStatusPending,
      TaskPriorityHigh, 2, 2, none⟩ _ rfl rfl

/-! Behaviour of `CompleteTask` on found rows. -/

theorem CompleteTask_completed_step {db : DB} {id : String} {now : Nat} {task0 : Task}
    (h0 : findRow db id = some task0) (hid : id ≠ "")
    (hc : task0.status = TaskStatusCompleted) :
    TaskService.CompleteTask db id now = ⟨.ok task0, db, [.getByIDCall id]⟩ := by
  have hget : SQLiteTaskRepository.GetByID db id = .ok task0 := GetByID_eq_ok.mpr h0
  simp [TaskService.CompleteTask, hid, hget, hc]

theorem CompleteTask_pending_step {db : DB} {id : String} {now : Nat} {task0 : Task}
    (h0 : findRow db id = some task0) (hid : id ≠ "")
    (hc : ¬task0.status = TaskStatusCompleted) :
    TaskService.CompleteTask db id now =
      ⟨.ok (task0.MarkCompleted now),
       db.map (fun r => if r.id == id then task0.MarkCompleted now else r),
       [.getByIDCall id, .updateCall (task0.MarkCompleted now)]⟩ := by
  have hget : SQLiteTaskRepository.GetByID db id = .ok task0 := GetByID_eq_ok.mpr h0
  have hid0 : task0.id = id := findRow_id h0
  have hrow : findRow db (task0.MarkCompleted now).id = some task0 := by
    simpa [Task.MarkCompleted, hid0] using h0
  have hid1 : (task0.MarkCompleted now).id = id := by
    simp [Task.MarkCompleted, hid0]
  have hupd := Update_eq_ok hrow
  rw [hid1] at hupd
  simp [TaskService.CompleteTask, hid, hget, hc, hupd]

/-- C4: `CompleteTask` is idempotent. On a task that is already completed
it returns the task unchanged, leaves the table unchanged and issues no
write. On a pending task it transitions the status, sets `completedAt` and
`updatedAt` to the call's `time.Now()` value and persists; a second call
at a later clock value `now2` then returns the very same task — the stored
`completedAt` stays at `now1` and is not advanced — without writing. -/
theorem completeTask_idempotent (db : DB) (id : String) (now1 now2 : Nat) (task0 : Task)
    (h0 : findRow db id = some task0) (hid : id ≠ "") :
    (task0.status = TaskStatusCompleted →
      TaskService.CompleteTask db id now1 = ⟨.ok task0, db, [.getByIDCall id]⟩) ∧
    (task0.status ≠ TaskStatusCompleted →
      TaskService.CompleteTask db id now1 =
        ⟨.ok (task0.MarkCompleted now1),
         db.map (fun r => if r.id == id then task0.MarkCompleted now1 else r),
         [.getByIDCall id, .updateCall (task0.MarkCompleted now1)]⟩ ∧
      (task0.MarkCompleted now1).status = TaskStatusCompleted ∧
      (task0.MarkCompleted now1).completedAt = some now1 ∧
      (task0.MarkCompleted now1).updatedAt = now1 ∧
      TaskService.CompleteTask ((TaskService.CompleteTask db id now1).db) id now2 =
        ⟨.ok (task0.MarkCompleted now1), (TaskService.CompleteTask db id now1).db,
         [.getByIDCall id]⟩) := by
  constructor
  · intro hc
    exact CompleteTask_completed_step h0 hid hc
  · intro hc
    have hstep := @CompleteTask_pending_step db id now1 task0 h0 hid hc
    have hid1 : (task0.MarkCompleted now1).id = id := by
      simp [Task.MarkCompleted, findRow_id h0]
    have hfind2 : findRow ((TaskService.CompleteTask db id now1).db) id =
        some (task0.MarkCompleted now1) := by
      rw [hstep]
      exact findRow_map_replace db id (task0.MarkCompleted now1) hid1 task0 h0
    have hc2 : (task0.MarkCompleted now1).status = TaskStatusCompleted := by
      simp [Task.MarkCompleted]
    refine ⟨hstep, hc2, by simp [Task.MarkCompleted], by simp [Task.MarkCompleted], ?_⟩
    exact CompleteTask_completed_step hfind2 hid hc2

/-- C4 witness: completing a concrete pending task at clock 8 persists
`completedAt = 8`; completing again at clock 9 returns the same task with
`completedAt = 8`, without a repository write. -/
theorem completeTask_idempotent_witness :
    TaskService.CompleteTask [taskExisting] "t1" 8 =
      ⟨.ok (taskExisting.MarkCompleted 8),
       [taskExisting].map (fun r => if r.id == "t1" then taskExisting.MarkCompleted 8 else r),
       [.getByIDCall "t1", .updateCall (taskExisting.MarkCompleted 8)]⟩ ∧
    (taskExisting.MarkCompleted 8).status = TaskStatusCompleted ∧
    (taskExisting.MarkCompleted 8).completedAt = some 8 ∧
    (taskExisting.MarkCompleted 8).updatedAt = 8 ∧
    TaskService.CompleteTask ((TaskService.CompleteTask [taskExisting] "t1" 8).db) "t1" 9 =
      ⟨.ok (taskExisting.MarkCompleted 8), (TaskService.CompleteTask [taskExisting] "t1" 8).db,
       [.getByIDCall "t1"]⟩ :=
  (completeTask_idempotent [taskExisting] "t1" 8 9 taskExisting rfl (by decide)).2
    (by decide)

/-! The completion invariant of the data model. -/

/-- The specification's invariant: `completed_at` is present if and only
if the status is completed. -/
def TaskInvariant (t : Task) : Prop :=
  t.completedAt.isSome ↔ t.status = TaskStatusCompleted

instance : DecidablePred TaskInvariant := fun t => by
  unfold TaskInvariant
  infer_instance

/-- The invariant lifted to every row of the table. -/
def DBInvariant (db : DB) : Prop :=
  ∀ t ∈ db, TaskInvariant t

instance (db : DB) : Decidable (DBInvariant db) := by
  unfold DBInvariant
  exact List.decidableBAll _ db

theorem DBInvariant_replace {db : DB} {id : String} {t : Task}
    (hdb : DBInvariant db) (ht : TaskInvariant t) :
    DBInvariant (db.map (fun r => if r.id == id then t else r)) := by
  intro x hx
  obtain ⟨r, hr, hxr⟩ := List.mem_map.mp hx
  by_cases h : (r.id == id) = true
  · rw [if_pos h] at hxr
    exact hxr ▸ ht
  · rw [if_neg h] at hxr
    exact hxr ▸ hdb r hr

theorem CreateTask_ok_elim {db : DB} {newId title description : String}
    {priority : TaskPriority} {now1 now2 : Nat} {t : Task}
    (hres : (TaskService.CreateTask db newId title description priority now1 now2).result =
      .ok t) :
    t = TaskService.newTask newId title description priority now1 now2 ∧
    (TaskService.CreateTask db newId title description priority now1 now2).db =
      db ++ [t] := by
  cases hval : (TaskService.newTask newId title description priority now1 now2).Validate with
  | error e =>
    unfold TaskService.CreateTask at hres
    simp [hval] at hres
  | ok u =>
    cases hcr : SQLiteTaskRepository.Create db
        (TaskService.newTask newId title description priority now1 now2) with
    | error e =>
      unfold TaskService.CreateTask at hres
      simp [hval, hcr] at hres
    | ok db2 =>
      have hdb2 : db2 = db ++ [TaskService.newTask newId title description priority now1 now2] := by
        unfold SQLiteTaskRepository.Create at hcr
        by_cases hf : (findRow db (TaskService.newTask newId title description priority now1 now2).id).isSome
        · rw [if_pos hf] at hcr
          exact absurd hcr (by simp)
        · rw [if_neg hf] at hcr
          exact (Except.ok.inj hcr).symm
      have hstep : TaskService.CreateTask db newId title description priority now1 now2 =
          ⟨.ok (TaskService.newTask newId title description priority now1 now2), db2,
           [.createCall (TaskService.newTask newId title description priority now1 now2)]⟩ := by
        simp [TaskService.CreateTask, hval, hcr]
      rw [hstep] at hres
      simp only [Except.ok.injEq] at hres
      subst hres
      exact ⟨rfl, by rw [hstep]; exact hdb2⟩

theorem CompleteTask_ok_elim {db : DB} {id : String} {now : Nat} {t : Task}
    (hres : (TaskService.CompleteTask db id now).result = .ok t) :
    ∃ task0, findRow db id = some task0 ∧
      ((task0.status = TaskStatusCompleted ∧ t = task0 ∧
        (TaskService.CompleteTask db id now).db = db) ∨
       (task0.status ≠ TaskStatusCompleted ∧ t = task0.MarkCompleted now ∧
        (TaskService.CompleteTask db id now).db =
          db.map (fun r => if r.id == id then t else r))) := by
  by_cases hid : id = ""
  · unfold TaskService.CompleteTask at hres
    simp [hid] at hres
  · cases hfind : findRow db id with
    | none =>
      have hget : SQLiteTaskRepository.GetByID db id = .error .taskNotFound := by
        unfold SQLiteTaskRepository.GetByID
        rw [hfind]
      unfold TaskService.CompleteTask at hres
      simp [hid, hget] at hres
    | some task0 =>
      by_cases hc : task0.status = TaskStatusCompleted
      · have hstep := @CompleteTask_completed_step db id now task0 hfind hid hc
        rw [hstep] at hres
        simp only [Except.ok.injEq] at hres
        subst hres
        exact ⟨task0, rfl, .inl ⟨hc, rfl, by rw [hstep]⟩⟩
      · have hstep := @CompleteTask_pending_step db id now task0 hfind hid hc
        rw [hstep] at hres
        simp only [Except.ok.injEq] at hres
        subst hres
        exact ⟨task0, rfl, .inr ⟨hc, rfl, by rw [hstep]⟩⟩

/-- C7: on a table in which every row satisfies the completion invariant
(`completedAt` present iff status completed), every successful
`CreateTask`, `UpdateTask` and `CompleteTask` returns a task satisfying
the invariant and leaves a table in which every row still satisfies it. -/
theorem service_preserves_completedAt_invariant (db : DB) (hinv : DBInvariant db) :
    (∀ newId title description priority now1 now2 t,
      (TaskService.CreateTask db newId title description priority now1 now2).result =
        .ok t →
      TaskInvariant t ∧
        DBInvariant (TaskService.CreateTask db newId title description priority now1 now2).db) ∧
    (∀ id title description priority now t,
      (TaskService.UpdateTask db id title description priority now).result = .ok t →
      TaskInvariant t ∧
        DBInvariant (TaskService.UpdateTask db id title description priority now).db) ∧
    (∀ id now t,
      (TaskService.CompleteTask db id now).result = .ok t →
      TaskInvariant t ∧ DBInvariant (TaskService.CompleteTask db id now).db) := by
  refine ⟨?_, ?_, ?_⟩
  · intro newId title description priority now1 now2 t hres
    obtain ⟨ht, hdb⟩ := CreateTask_ok_elim hres
    have hti : TaskInvariant t := by
      subst ht
      simp [TaskInvariant, TaskService.newTask, TaskStatusPending, TaskStatusCompleted]
    refine ⟨hti, ?_⟩
    rw [hdb]
    intro x hx
    rcases List.mem_append.mp hx with h | h
    · exact hinv x h
    · rw [List.mem_singleton.mp h]
      exact hti
  · intro id title description priority now t hres
    obtain ⟨task0, hfind, hid0, ht, hval, hdb, hcalls⟩ := UpdateTask_ok_elim hres
    have htask0 : TaskInvariant task0 := hinv task0 (findRow_mem hfind)
    have hti : TaskInvariant t := by
      subst ht
      obtain ⟨f1, f2, f3, f4, _, _, _, _⟩ :=
        applyUpdates_fields task0 title description priority now
      unfold TaskInvariant at htask0 ⊢
      rw [f2, f4]
      exact htask0
    refine ⟨hti, ?_⟩
    rw [hdb]
    exact DBInvariant_replace hinv hti
  · intro id now t hres
    obtain ⟨task0, hfind, hcase⟩ := CompleteTask_ok_elim hres
    rcases hcase with ⟨hc, ht, hdb⟩ | ⟨hc, ht, hdb⟩
    · subst ht
      exact ⟨hinv t (findRow_mem hfind), by rw [hdb]; exact hinv⟩
    · have hti : TaskInvariant t := by
        subst ht
        simp [TaskInvariant, Task.MarkCompleted]
      refine ⟨hti, ?_⟩
      rw [hdb]
      exact DBInvariant_replace hinv hti

/-- C7 witness: the invariant instantiated on a concrete one-row table
through a concrete successful `CreateTask`. -/
theorem service_preserves_completedAt_invariant_witness :
    TaskInvariant (TaskService.newTask "n1" "Read" "" TaskPriorityLow 2 2) ∧
    DBInvariant (TaskService.CreateTask [taskExisting] "n1" "Read" "" TaskPriorityLow 2 2).db :=
  (service_preserves_completedAt_invariant [taskExisting] (by decide)).1
    "n1" "Read" "" TaskPriorityLow 2 2
    (TaskService.newTask "n1" "Read" "" TaskPriorityLow 2 2) rfl

/-! Absence characterizations for the write operations. -/

theorem findRow_eq_none_iff {db : DB} {id : String} :
    findRow db id = none ↔ ∀ r ∈ db, ¬r.id = id := by
  unfold findRow
  rw [List.find?_eq_none]
  simp

theorem filter_id_length_eq_zero_iff {db : DB} {id : String} :
    (db.filter (fun r => r.id == id)).length = 0 ↔ findRow db id = none := by
  rw [List.length_eq_zero, List.filter_eq_nil_iff, findRow_eq_none_iff]
  simp

/-- C8: the repository's `Update` and `Delete` report the distinguished
`ErrTaskNotFound` exactly when the write touches zero rows, that is
exactly when no row with the target id exists; when a row exists the
write succeeds, so absence is never a silent success and presence never a
spurious error. -/
theorem update_delete_notFound_iff_absent (db : DB) (task : Task) (id : String) :
    (SQLiteTaskRepository.Update db task = .error .taskNotFound ↔
      findRow db task.id = none) ∧
    (SQLiteTaskRepository.Delete db id = .error .taskNotFound ↔
      (db.filter (fun r => r.id == id)).length = 0) ∧
    (SQLiteTaskRepository.Delete db id = .error .taskNotFound ↔
      findRow db id = none) ∧
    ((findRow db task.id).isSome →
      SQLiteTaskRepository.Update db task =
        .ok (db.map (fun r => if r.id == task.id then task else r))) ∧
    ((db.filter (fun r => r.id == id)).length ≠ 0 →
      SQLiteTaskRepository.Delete db id = .ok (db.filter (fun r => r.id != id))) := by
  have hdel : SQLiteTaskRepository.Delete db id = .error .taskNotFound ↔
      (db.filter (fun r => r.id == id)).length = 0 := by
    unfold SQLiteTaskRepository.Delete
    by_cases h : (db.filter (fun r => r.id == id)).length = 0
    · simp [h]
    · simp [h]
  refine ⟨?_, hdel, hdel.trans filter_id_length_eq_zero_iff, ?_, ?_⟩
  · constructor
    · intro h
      cases hf : findRow db task.id with
      | none => rfl
      | some x =>
        rw [Update_eq_ok hf] at h
        exact absurd h (by simp)
    · intro hf
      exact Update_eq_err_of_absent hf
  · intro hsome
    obtain ⟨x, hx⟩ := Option.isSome_iff_exists.mp hsome
    exact Update_eq_ok hx
  · intro h
    unfold SQLiteTaskRepository.Delete
    simp [h]

/-- C8 witness: on the one-row table, updating a task whose id is present
succeeds, and deleting an absent id reports `ErrTaskNotFound`. -/
theorem update_delete_notFound_iff_absent_witness :
    (SQLiteTaskRepository.Update [taskExisting] taskColliding =
        .error .taskNotFound ↔
      findRow [taskExisting] taskColliding.id = none) ∧
    (SQLiteTaskRepository.Delete [taskExisting] "zz" = .error .taskNotFound ↔
      ([taskExisting].filter (fun r => r.id == "zz")).length = 0) ∧
    (SQLiteTaskRepository.Delete [taskExisting] "zz" = .error .taskNotFound ↔
      findRow [taskExisting] "zz" = none) ∧
    ((findRow [taskExisting] taskColliding.id).isSome →
      SQLiteTaskRepository.Update [taskExisting] taskColliding =
        .ok ([taskExisting].map
          (fun r => if r.id == taskColliding.id then taskColliding else r))) ∧
    (([taskExisting].filter (fun r => r.id == "zz")).length ≠ 0 →
      SQLiteTaskRepository.Delete [taskExisting] "zz" =
        .ok ([taskExisting].filter (fun r => r.id != "zz"))) :=
  update_delete_notFound_iff_absent [taskExisting] taskColliding "zz"

/-! Semantics of the filtered list query. -/

/-- The specification-side reading of a filter: the conjunction of the
predicates whose fields are set — status equality, priority equality,
inclusive created-at lower bound, inclusive created-at upper bound. -/
def matchesFilter (f : TaskFilter) (t : Task) : Prop :=
  (∀ s, f.status = some s → t.status = s) ∧
  (∀ p, f.priority = some p → t.priority = p) ∧
  (∀ d, f.fromDate = some d → d ≤ t.createdAt) ∧
  (∀ d, f.toDate = some d → t.createdAt ≤ d)

theorem rowMatches_buildClauses_iff (f : TaskFilter) (t : Task) :
    rowMatches (buildClauses f) t = true ↔ matchesFilter f t := by
  obtain ⟨st, pr, fd, td⟩ := f
  cases st <;> cases pr <;> cases fd <;> cases td <;>
    simp [buildClauses, rowMatches, Clause.holds, matchesFilter, and_assoc]

/-- C5: the repository's `List` always succeeds (never an error, even with
zero matches), returns exactly the rows satisfying the conjunction of the
set filter predicates, in `created_at`-descending order whatever the
filter; the empty filter returns every row, and when nothing matches the
result is the empty sequence. -/
theorem listTasks_filter_semantics (db : DB) (f : TaskFilter) :
    ∃ rows, SQLiteTaskRepository.ListTasks db f = .ok rows ∧
      List.Perm rows (db.filter (rowMatches (buildClauses f))) ∧
      (∀ t, t ∈ rows ↔ t ∈ db ∧ matchesFilter f t) ∧
      List.Sorted createdAtDesc rows ∧
      (f = ⟨none, none, none, none⟩ → List.Perm rows db) ∧
      ((∀ t ∈ db, ¬matchesFilter f t) → rows = []) := by
  refine ⟨sortByCreatedAtDesc (db.filter (rowMatches (buildClauses f))),
    rfl, ?_, ?_, ?_, ?_, ?_⟩
  · exact List.perm_insertionSort _ _
  · intro t
    simp [sortByCreatedAtDesc, List.mem_insertionSort, List.mem_filter,
      rowMatches_buildClauses_iff]
  · exact List.sorted_insertionSort _ _
  · intro hf
    subst hf
    have hall : db.filter (rowMatches (buildClauses ⟨none, none, none, none⟩)) = db := by
      simp [buildClauses, rowMatches]
    rw [sortByCreatedAtDesc, hall]
    exact List.perm_insertionSort _ _
  · intro hnone
    have hfil : db.filter (rowMatches (buildClauses f)) = [] := by
      rw [List.filter_eq_nil_iff]
      intro a ha
      simpa [rowMatches_buildClauses_iff] using hnone a ha
    rw [sortByCreatedAtDesc, hfil]
    rfl

/-- C5 witness: the list semantics instantiated on a concrete two-row
table with a concrete status filter. -/
theorem listTasks_filter_semantics_witness :
    ∃ rows, SQLiteTaskRepository.ListTasks [taskExisting]
        ⟨some TaskStatusPending, none, none, none⟩ = .ok rows ∧
      List.Perm rows ([taskExisting].filter
        (rowMatches (buildClauses ⟨some TaskStatusPending, none, none, none⟩))) ∧
      (∀ t, t ∈ rows ↔ t ∈ [taskExisting] ∧
        matchesFilter ⟨some TaskStatusPending, none, none, none⟩ t) ∧
      List.Sorted createdAtDesc rows ∧
      ((⟨some TaskStatusPending, none, none, none⟩ : TaskFilter) =
          ⟨none, none, none, none⟩ → List.Perm rows [taskExisting]) ∧
      ((∀ t ∈ [taskExisting],
          ¬matchesFilter ⟨some TaskStatusPending, none, none, none⟩ t) → rows = []) :=
  listTasks_filter_semantics [taskExisting] ⟨some TaskStatusPending, none, none, none⟩

/-! Schema migration model (`SQLiteStorage.runMigrations`). -/

/-- The schema-level state a migration run observes and mutates: whether
the `migrations` ledger table exists, the versions recorded in it, and
whether the `tasks` table and its three indexes exist. -/
structure SchemaState where
  migrationsTable : Bool
  appliedVersions : List String
  tasksTable : Bool
  idxStatus : Bool
  idxPriority : Bool
  idxCreatedAt : Bool
deriving Repr, DecidableEq

/-- The versions of the inline migration map, sorted lexically: the map
holds the single entry `001_create_tasks_table`. -/
def migrationVersions : List String := ["001_create_tasks_table"]

/-- Effect of executing one migration's DDL script. The shipped script is
all `CREATE TABLE IF NOT EXISTS` / `CREATE INDEX IF NOT EXISTS`
statements, so it sets the existence flags and is a no-op on flags that
are already set. -/
def applyMigrationDDL (version : String) (s : SchemaState) : SchemaState :=
  if version = "001_create_tasks_table" then
    { s with tasksTable := true, idxStatus := true,
             idxPriority := true, idxCreatedAt := true }
  else s

/-- Method `runMigrations` of `SQLiteStorage`: create the `migrations`
ledger if absent, read the applied set once, then for each version in
lexical order either skip it (already in the ledger) or execute its DDL
and record the version, both in one transaction. The returned list is the
trace of versions applied during this run. I/O failures (connection loss,
transaction failure) are outside the model, which is why no `.error`
branch is reachable: on a well-formed state none of the `IF NOT EXISTS`
statements can fail. -/
def SQLiteStorage.runMigrations (s0 : SchemaState) :
    Except GoErr (SchemaState × List String) :=
  let s1 := { s0 with migrationsTable := true }
  .ok (migrationVersions.foldl
    (fun acc version =>
      if version ∈ s1.appliedVersions then acc
      else
        ({ applyMigrationDDL version acc.1 with
            appliedVersions := (applyMigrationDDL version acc.1).appliedVersions ++ [version] },
         acc.2 ++ [version]))
    (s1, []))

/-- Iterated state component of repeated migration runs. -/
def runMigrationsIter : Nat → SchemaState → SchemaState
  | 0, s => s
  | n + 1, s =>
    match SQLiteStorage.runMigrations s with
    | .ok (s2, _) => runMigrationsIter n s2
    | .error _ => s

theorem runMigrations_fixed {s : SchemaState} (hm : s.migrationsTable = true)
    (ha : "001_create_tasks_table" ∈ s.appliedVersions) :
    SQLiteStorage.runMigrations s = .ok (s, []) := by
  have hs1 : { s with migrationsTable := true } = s := by
    obtain ⟨m, av, tt, i1, i2, i3⟩ := s
    simp_all
  unfold SQLiteStorage.runMigrations
  rw [hs1]
  simp [migrationVersions, ha]

theorem runMigrations_establishes (s : SchemaState) :
    ∃ s1 ran, SQLiteStorage.runMigrations s = .ok (s1, ran) ∧
      s1.migrationsTable = true ∧
      "001_create_tasks_table" ∈ s1.appliedVersions := by
  by_cases h : "001_create_tasks_table" ∈ s.appliedVersions
  · refine ⟨{ s with migrationsTable := true }, [], ?_, rfl, by simpa using h⟩
    unfold SQLiteStorage.runMigrations
    simp [migrationVersions, h]
  · refine ⟨⟨true, s.appliedVersions ++ ["001_create_tasks_table"],
      true, true, true, true⟩, ["001_create_tasks_table"], ?_, rfl, by simp⟩
    unfold SQLiteStorage.runMigrations
    simp [migrationVersions, h, applyMigrationDDL]

/-- C6: running `runMigrations` against an already-migrated state is a
no-op: after one run producing state `s1`, every further run returns
success with the state unchanged and an empty list of versions applied
(so no DDL is executed and no version re-recorded), and `n` further runs
still leave `s1` unchanged, for every starting state and every `n`. -/
theorem runMigrations_idempotent (s : SchemaState) (n : Nat) :
    ∃ s1 ran, SQLiteStorage.runMigrations s = .ok (s1, ran) ∧
      SQLiteStorage.runMigrations s1 = .ok (s1, []) ∧
      runMigrationsIter n s1 = s1 := by
  obtain ⟨s1, ran, hrun, hm, ha⟩ := runMigrations_establishes s
  have hfix := runMigrations_fixed hm ha
  refine ⟨s1, ran, hrun, hfix, ?_⟩
  induction n with
  | zero => rfl
  | succ k ih => simp [runMigrationsIter, hfix, ih]

/-- C6 witness: repeated migration runs on the concrete pristine schema
state. -/
theorem runMigrations_idempotent_witness :
    ∃ s1 ran,
      SQLiteStorage.runMigrations ⟨false, [], false, false, false, false⟩ =
        .ok (s1, ran) ∧
      SQLiteStorage.runMigrations s1 = .ok (s1, []) ∧
      runMigrationsIter 3 s1 = s1 :=
  runMigrations_idempotent ⟨false, [], false, false, false, false⟩ 3

end TaskManager
